import Mathlib

/-!
Verification of the powersync-e2ee todo application (encrypted table ⇄
plaintext mirror engine).

Embedding conventions:
* Byte arrays (`Uint8Array`) are modelled as `List Nat`.
* The base64 helpers `bytesToBase64`/`base64ToBytes` from `@crypto/interface`
  form an inverse pair, so base64-string-valued fields are identified with
  the byte sequences they encode.
* libsodium's `crypto_aead_xchacha20poly1305_ietf_encrypt/decrypt` is
  modelled as an ideal AEAD: a ciphertext value remembers the key, nonce and
  AAD under which it was produced, and decryption yields the plaintext
  exactly when all three match (real AEAD fails with overwhelming
  probability on any mismatch).  AAD byte strings are identified with the
  strings they encode (`TextEncoder` is injective).
* Random values (nonces, fresh DEKs) are inputs of the embedded functions.
-/

/-- Byte arrays (`Uint8Array`) as lists of naturals. -/
abbrev Bytes := List Nat

/-- Ideal-AEAD ciphertext: remembers key, nonce and AAD of its creation. -/
structure ACipher where
  key : Bytes
  nonce : Bytes
  ad : Option String
  plain : Bytes
deriving DecidableEq, Repr

/-- Ideal model of `crypto_aead_xchacha20poly1305_ietf_encrypt`. -/
def aeadEncrypt (plain : Bytes) (ad : Option String) (nonce : Bytes)
    (key : Bytes) : ACipher :=
  { key := key, nonce := nonce, ad := ad, plain := plain }

/-- Ideal model of `crypto_aead_xchacha20poly1305_ietf_decrypt`: succeeds
exactly when key, nonce and AAD match those used at encryption time. -/
def aeadDecrypt (ct : ACipher) (ad : Option String) (nonce : Bytes)
    (key : Bytes) : Option Bytes :=
  if ct.key = key ∧ ct.nonce = nonce ∧ ct.ad = ad then some ct.plain else none

/-- KDF metadata of a `CipherEnvelope` header (`kdf: { saltB64 }`). -/
structure KdfMeta where
  saltB64 : String
deriving DecidableEq, Repr

/-- Header of a `CipherEnvelope` from `@crypto/interface`.  The TypeScript
type constrains the version to the literal `1` (`v: 1 as const` at every
construction site); here `v : Nat` with validity meaning `v = 1`. -/
structure EnvHeader where
  v : Nat
  alg : String
  aad : Option String
  kdf : KdfMeta
deriving DecidableEq, Repr

/-- `CipherEnvelope`: self-describing container for one ciphertext.  The
`nB64`/`cB64` base64 strings are identified with the values they encode. -/
structure CipherEnvelope where
  header : EnvHeader
  nB64 : Bytes
  cB64 : ACipher
deriving DecidableEq, Repr

/-- JavaScript truthiness filter used on AAD strings: `aad ? encode(aad) :
null` passes the encoded string iff it is present and non-empty. -/
def adOfJs (aad : Option String) : Option String :=
  match aad with
  | some s => if s = "" then none else some s
  | none => none

/-- Algorithm tag `ALG` of `dataCrypto.ts`. -/
def dataCryptoAlg : String := "xchacha20poly1305/raw"

namespace DataCrypto

/-- `DataCrypto.encrypt` from `dataCrypto.ts` (the fresh random nonce is an
input of the embedding). -/
def encrypt (key : Bytes) (nonce : Bytes) (plain : Bytes)
    (aad : Option String) : CipherEnvelope :=
  { header := { v := 1, alg := dataCryptoAlg, aad := aad, kdf := { saltB64 := "" } }
    nB64 := nonce
    cB64 := aeadEncrypt plain (adOfJs aad) nonce key }

/-- `DataCrypto.decrypt` from `dataCrypto.ts`: the effective AAD is
`aad ?? env.header.aad`, passed through JavaScript truthiness. -/
def decrypt (key : Bytes) (env : CipherEnvelope) (aad : Option String) :
    Option Bytes :=
  aeadDecrypt env.cB64 (adOfJs (match aad with | some s => some s | none => env.header.aad))
    env.nB64 key

end DataCrypto

/-- Flat relational column representation of an envelope
(`EncryptedColumns` from `@crypto/interface`). -/
structure EncryptedColumns where
  alg : String
  aad : Option String
  nonce_b64 : Bytes
  cipher_b64 : ACipher
  kdf_salt_b64 : Option String
deriving DecidableEq, Repr

/-- `columnsToEnvelope` from the pair-config module: rebuilds a
`CipherEnvelope` from its flat column representation. -/
def columnsToEnvelope (args : EncryptedColumns) : CipherEnvelope :=
  { header :=
      { v := 1
        alg := args.alg
        aad := args.aad
        kdf := { saltB64 := args.kdf_salt_b64.getD "" } }
    nB64 := args.nonce_b64
    cB64 := args.cipher_b64 }

/-- Modelled from the spec: `envelopeToColumns` (the flattening inverse of
`columnsToEnvelope`, named by the spec's round-trip law; its source is not
under src/) stores each envelope field in its own column. -/
def envelopeToColumns (e : CipherEnvelope) : EncryptedColumns :=
  { alg := e.header.alg
    aad := e.header.aad
    nonce_b64 := e.nB64
    cipher_b64 := e.cB64
    kdf_salt_b64 := some e.header.kdf.saltB64 }

/-- C1: decrypting, with the same key and the same AAD, the envelope that
encryption produced returns the original plaintext:
`decrypt(encrypt(p, a), a) = p` for every plaintext `p` and AAD string `a`. -/
theorem c1_decrypt_encrypt_roundtrip (key nonce p : Bytes) (a : String) :
    DataCrypto.decrypt key (DataCrypto.encrypt key nonce p (some a)) (some a) =
      some p := by
  simp [DataCrypto.decrypt, DataCrypto.encrypt, aeadDecrypt, aeadEncrypt]

/-- C2: an envelope whose AAD was bound at encrypt time never decrypts
successfully under a non-matching AAD: for `a ≠ a'`,
`decrypt(encrypt(p, a), a')` fails. -/
theorem c2_aad_mismatch_fails (key nonce p : Bytes) (a a' : String)
    (h : a ≠ a') :
    DataCrypto.decrypt key (DataCrypto.encrypt key nonce p (some a)) (some a') =
      none := by
  simp only [DataCrypto.decrypt, DataCrypto.encrypt, aeadDecrypt, aeadEncrypt]
  have had : adOfJs (some a) ≠ adOfJs (some a') := by
    simp only [adOfJs]
    by_cases ha : a = ""
    · by_cases ha' : a' = ""
      · exact absurd (ha.trans ha'.symm) h
      · simp [ha, ha']
    · by_cases ha' : a' = ""
      · simp [ha, ha']
      · simp [ha, ha']
        exact h
  simp [had]

/-- C2 witness at a concrete input. -/
theorem c2_aad_mismatch_fails_witness :
    ("todo-v1" : String) ≠ "other" ∧
      DataCrypto.decrypt [1] (DataCrypto.encrypt [1] [7] [42] (some "todo-v1"))
        (some "other") = none :=
  ⟨by decide, c2_aad_mismatch_fails [1] [7] [42] "todo-v1" "other" (by decide)⟩

/-- C9: calling `decrypt` with no explicit AAD argument on an envelope
produced by `encrypt(p, a)` succeeds and returns `p`: the decrypt path falls
back to the AAD stored in the envelope header (`aad ?? env.header.aad`). -/
theorem c9_decrypt_omitted_aad_falls_back (key nonce p : Bytes) (a : String) :
    DataCrypto.decrypt key (DataCrypto.encrypt key nonce p (some a)) none =
      some p := by
  simp [DataCrypto.decrypt, DataCrypto.encrypt, aeadDecrypt, aeadEncrypt]

/-- C3: flattening a valid envelope (version field `1`, as the TypeScript
envelope type requires) into its relational columns and rebuilding with
`columnsToEnvelope` yields the same envelope. -/
theorem c3_columns_envelope_roundtrip (e : CipherEnvelope)
    (h : e.header.v = 1) :
    columnsToEnvelope (envelopeToColumns e) = e := by
  cases e with
  | mk header nB64 cB64 =>
    cases header with
    | mk v alg aad kdf =>
      cases kdf with
      | mk saltB64 =>
        simp only [columnsToEnvelope, envelopeToColumns, Option.getD_some]
        simp only at h
        simp [h]

/-- Sample valid envelope used to witness the round-trip law. -/
def c3SampleEnv : CipherEnvelope where
  header := { v := 1, alg := "xchacha20poly1305/raw", aad := some "todo-v1",
              kdf := { saltB64 := "" } }
  nB64 := [3]
  cB64 := { key := [1], nonce := [3], ad := some "todo-v1", plain := [9] }

/-- C3 witness at a concrete valid envelope. -/
theorem c3_columns_envelope_roundtrip_witness :
    c3SampleEnv.header.v = 1 ∧
      columnsToEnvelope (envelopeToColumns c3SampleEnv) = c3SampleEnv :=
  ⟨rfl, c3_columns_envelope_roundtrip c3SampleEnv rfl⟩

/-- Column list of the managed `todos` table declared in
`SystemProvider.tsx` (`new Table({...})`), in declaration order. -/
def todosSchemaColumns : List String :=
  ["id", "user_id", "bucket_id", "alg", "aad", "nonce_b64", "cipher_b64",
   "kdf_salt_b64", "created_at", "updated_at"]

/-- Column list of `CREATE_TABLE_SQL` for `todos`, in declaration order. -/
def todosCreateTableColumns : List String :=
  ["id", "user_id", "bucket_id", "alg", "aad", "nonce_b64", "cipher_b64",
   "kdf_salt_b64", "created_at", "updated_at"]

/-- The column set asserted by the spec for the persisted encrypted table:
four implicit columns plus five envelope columns, nothing else. -/
def c4ClaimedColumns : List String :=
  ["id", "user_id", "bucket_id", "updated_at", "alg", "aad", "nonce_b64",
   "cipher_b64", "kdf_salt_b64"]

/-- The amended column set: the claimed nine columns plus `created_at`. -/
def c4AmendedColumns : List String :=
  ["id", "user_id", "bucket_id", "updated_at", "alg", "aad", "nonce_b64",
   "cipher_b64", "kdf_salt_b64", "created_at"]

/-- C4 counterexample: the persisted `todos` table carries the column
`created_at`, which is not among the nine columns the claim allows, so the
table does not carry exactly those nine columns. -/
theorem c4_created_at_extra_column :
    "created_at" ∈ todosSchemaColumns ∧ "created_at" ∉ c4ClaimedColumns ∧
      "created_at" ∈ todosCreateTableColumns := by
  decide

/-- C4 (amended): the persisted encrypted table carries exactly the four
implicit columns, the five envelope columns, and `created_at` — both in the
PowerSync schema declaration and in `CREATE_TABLE_SQL`. -/
theorem c4_todos_columns_amended :
    (∀ c, c ∈ todosSchemaColumns ↔ c ∈ c4AmendedColumns) ∧
      (∀ c, c ∈ todosCreateTableColumns ↔ c ∈ c4AmendedColumns) := by
  constructor <;> intro c <;>
    simp [todosSchemaColumns, todosCreateTableColumns, c4AmendedColumns] <;>
    tauto

/-- Persisted row of the encrypted `todos` table (`RawEncryptedRow`):
implicit columns plus the envelope columns.  Timestamps (`TEXT` ISO 8601
values produced by an increasing clock) are modelled as naturals whose
order agrees with the ISO string order. -/
structure EncRow where
  id : String
  user_id : String
  bucket_id : Option String
  alg : String
  aad : Option String
  nonce_b64 : Bytes
  cipher_b64 : ACipher
  kdf_salt_b64 : String
  created_at : Nat
  updated_at : Nat
deriving DecidableEq, Repr

/-- `INSERT_SQL` semantics: append one row with the given ten parameters. -/
def insertTodoSql (id user_id : String) (bucket_id : Option String)
    (alg : String) (aad : Option String) (nonce_b64 : Bytes)
    (cipher_b64 : ACipher) (kdf_salt_b64 : String)
    (created_at updated_at : Nat) (tbl : List EncRow) : List EncRow :=
  tbl ++ [{ id := id, user_id := user_id, bucket_id := bucket_id, alg := alg,
            aad := aad, nonce_b64 := nonce_b64, cipher_b64 := cipher_b64,
            kdf_salt_b64 := kdf_salt_b64, created_at := created_at,
            updated_at := updated_at }]

/-- `UPDATE_SQL` semantics: set the five envelope columns and `updated_at`
on every row matching `id` and `user_id`. -/
def updateTodoSql (alg : String) (aad : Option String) (nonce_b64 : Bytes)
    (cipher_b64 : ACipher) (kdf_salt_b64 : String) (updated_at : Nat)
    (id user_id : String) (tbl : List EncRow) : List EncRow :=
  tbl.map fun r =>
    if r.id = id ∧ r.user_id = user_id then
      { r with alg := alg, aad := aad, nonce_b64 := nonce_b64,
               cipher_b64 := cipher_b64, kdf_salt_b64 := kdf_salt_b64,
               updated_at := updated_at }
    else r

/-- `DELETE_SQL` semantics: remove every row matching `id` and `user_id`. -/
def deleteTodoSql (id user_id : String) (tbl : List EncRow) : List EncRow :=
  tbl.filter fun r => ¬(r.id = id ∧ r.user_id = user_id)

/-- SQL `NULLIF(?, '')` on a (non-null) string parameter. -/
def sqlNullifEmpty (x : String) : Option String :=
  if x = "" then none else some x

/-- SQL `COALESCE` on two nullable values. -/
def sqlCoalesce (a b : Option String) : Option String :=
  match a with
  | some v => some v
  | none => b

/-- SQL three-valued `=` on nullable strings: `NULL` (here `none`) when
either operand is `NULL`. -/
def sqlEq3 (a b : Option String) : Option Bool :=
  match a, b with
  | some x, some y => some (x = y)
  | _, _ => none

/-- A SQL `WHERE` clause keeps a row only when its condition is `TRUE`
(`NULL` does not qualify). -/
def sqlIsTrue (v : Option Bool) : Bool :=
  v = some true

/-- `WHERE` predicate of `SELECT_BY_USER_OPTIONAL_BUCKET_SQL` evaluated
with parameters `[u, b]`:
`user_id = u AND COALESCE(NULLIF(b, ''), bucket_id) = bucket_id`. -/
def whereUserOptionalBucket (u b : String) (r : EncRow) : Bool :=
  sqlIsTrue (sqlEq3 (some r.user_id) (some u)) &&
    sqlIsTrue (sqlEq3 (sqlCoalesce (sqlNullifEmpty b) r.bucket_id) r.bucket_id)

/-- Row set of `SELECT_BY_USER_OPTIONAL_BUCKET_SQL` (both queries share the
same `ORDER BY created_at DESC`, so row-set equality is the comparison). -/
def selectByUserOptionalBucket (u b : String) (tbl : List EncRow) :
    List EncRow :=
  tbl.filter (whereUserOptionalBucket u b)

/-- Row set of `SELECT_BY_USER_SQL` (`WHERE user_id = ?`). -/
def selectByUser (u : String) (tbl : List EncRow) : List EncRow :=
  tbl.filter fun r => sqlIsTrue (sqlEq3 (some r.user_id) (some u))

/-- A row whose `bucket_id` is SQL `NULL` (the todo app inserts exactly such
rows when the bucket input is empty: `bucketId || null`). -/
def c10NullBucketRow : EncRow where
  id := "t1"
  user_id := "u"
  bucket_id := none
  alg := "xchacha20poly1305/raw"
  aad := some "todo-v1"
  nonce_b64 := [7]
  cipher_b64 := { key := [1], nonce := [7], ad := some "todo-v1", plain := [2] }
  kdf_salt_b64 := ""
  created_at := 0
  updated_at := 0

/-- C10: on a table holding one row with `bucket_id` `NULL`, the
optional-bucket query with parameters `[u, ""]` returns no rows while
`SELECT_BY_USER_SQL` returns the row: `COALESCE(NULLIF('', ''), bucket_id)
= bucket_id` evaluates to `NULL`, not `TRUE`, when `bucket_id` is `NULL`,
contradicting the tautology asserted by the code's own comment. -/
theorem c10_null_bucket_rows_filtered :
    selectByUserOptionalBucket "u" "" [c10NullBucketRow] = [] ∧
      selectByUser "u" [c10NullBucketRow] = [c10NullBucketRow] := by
  constructor <;> rfl

/-- Default AAD of the todo list (`useMemo(() => "todo-v1", [])`). -/
def todoAad : String := "todo-v1"

/-- Injective model of `utf8(JSON.stringify({ text, completed }))`: a tag
for the completed flag followed by the character codes of the text.
`JSON.stringify`/`JSON.parse` and `TextEncoder`/`TextDecoder` are inverse
pairs on such payloads (JSON escapes quotes), so an injective encoding with
a total decoder is a faithful model. -/
def encodeTodoJson (text : String) (completed : Bool) : Bytes :=
  (if completed then 1 else 0) :: text.data.map Char.toNat

/-- Model of decoding plus the JSON-parse logic of the rows loop in
`TodoList.tsx` (`JSON.parse(decoded)`, taking `obj.text` and
`obj.completed` when present): recovers the text and completed flag. -/
def decodeTodoBytes (b : Bytes) : String × Bool :=
  match b with
  | [] => ("", false)
  | c :: rest => (String.mk (rest.map Char.ofNat), c = 1)

/-- Rebuilding a string from its character list is the identity. -/
theorem stringMkData (s : String) : String.mk s.data = s := rfl

/-- Decoding inverts the payload encoding. -/
theorem decode_encode_todo (t : String) (c : Bool) :
    decodeTodoBytes (encodeTodoJson t c) = (t, c) := by
  have hmap : List.map (Char.ofNat ∘ Char.toNat) t.data = t.data := by
    rw [show Char.ofNat ∘ Char.toNat = id from funext Char.ofNat_toNat,
      List.map_id]
  cases c <;>
    simp [encodeTodoJson, decodeTodoBytes, List.map_map, hmap, stringMkData]

/-- Database-write step of `addTodo` in `TodoList.tsx`: encrypt the JSON
payload `{ text: text.trim(), completed: false }` under the list AAD and
run `INSERT_SQL` with `bucketId || null` and `now` for both timestamps. -/
def addTodoDb (key nonce : Bytes) (id userId bucketId text : String)
    (now : Nat) (tbl : List EncRow) : List EncRow :=
  let env := DataCrypto.encrypt key nonce (encodeTodoJson text.trim false)
    (some todoAad)
  insertTodoSql id userId (if bucketId = "" then none else some bucketId)
    env.header.alg (some todoAad) env.nB64 env.cB64 env.header.kdf.saltB64
    now now tbl

/-- Database-write step of `toggleCompleted` in `TodoList.tsx`,
parameterised by the payload fields it re-encrypts (the handler passes the
item's full `text` and the flipped `completed` flag): encrypt the whole
JSON payload and run `UPDATE_SQL`, replacing every envelope column and
`updated_at`. -/
def updateTodoDb (key nonce : Bytes) (id userId text : String)
    (completed : Bool) (now : Nat) (tbl : List EncRow) : List EncRow :=
  let env := DataCrypto.encrypt key nonce (encodeTodoJson text completed)
    (some todoAad)
  updateTodoSql env.header.alg (some todoAad) env.nB64 env.cB64
    env.header.kdf.saltB64 now id userId tbl

/-- Envelope rebuilt from a fetched row, as the rows loop does
(`columnsToEnvelope({ alg, aad: r.aad ?? null, nonce_b64, cipher_b64,
kdf_salt_b64 })`). -/
def rowEnvelope (r : EncRow) : CipherEnvelope :=
  columnsToEnvelope
    { alg := r.alg, aad := r.aad, nonce_b64 := r.nonce_b64,
      cipher_b64 := r.cipher_b64, kdf_salt_b64 := some r.kdf_salt_b64 }

/-- Decryption of a fetched row as the rows loop performs it:
`dataCrypto.decrypt(env, r.aad ?? undefined)`. -/
def decryptRowPayload (key : Bytes) (r : EncRow) : Option Bytes :=
  DataCrypto.decrypt key (rowEnvelope r) r.aad

/-- C5: after inserting content `{text:"a"}` and then updating the same row
to `{text:"b"}` (re-encrypting the full payload through `UPDATE_SQL`), the
stored envelope decrypts to the full payload whose text reads `"b"` — never
`"a"` — together with its completed flag (no partial-field re-encryption),
and the row's `updated_at` equals the update time, strictly later than the
`updated_at` written by the insert. -/
theorem c5_update_overwrites_envelope (key n1 n2 : Bytes)
    (id u bucket : String) (c2 : Bool) (t1 t2 : Nat) (h : t1 < t2) :
    ∃ r1, updateTodoDb key n2 id u "b" c2 t2
        (addTodoDb key n1 id u bucket "a" t1 []) = [r1] ∧
      decryptRowPayload key r1 = some (encodeTodoJson "b" c2) ∧
      decodeTodoBytes (encodeTodoJson "b" c2) = ("b", c2) ∧
      ("b" : String) ≠ "a" ∧
      r1.updated_at = t2 ∧
      ∀ r0 ∈ addTodoDb key n1 id u bucket "a" t1 [],
        r0.updated_at = t1 ∧ r0.updated_at < r1.updated_at := by
  refine ⟨{ id := id, user_id := u,
            bucket_id := if bucket = "" then none else some bucket,
            alg := dataCryptoAlg, aad := some todoAad, nonce_b64 := n2,
            cipher_b64 := aeadEncrypt (encodeTodoJson "b" c2)
              (adOfJs (some todoAad)) n2 key,
            kdf_salt_b64 := "", created_at := t1, updated_at := t2 },
    ?_, ?_, decode_encode_todo "b" c2, by decide, rfl, ?_⟩
  · simp [updateTodoDb, addTodoDb, insertTodoSql, updateTodoSql,
      DataCrypto.encrypt]
  · simp [decryptRowPayload, rowEnvelope, columnsToEnvelope, DataCrypto.decrypt,
      aeadDecrypt, aeadEncrypt, adOfJs, todoAad]
  · intro r0 hr0
    simp [addTodoDb, insertTodoSql] at hr0
    subst hr0
    exact ⟨rfl, h⟩

/-- C5 witness at concrete inputs. -/
theorem c5_update_overwrites_envelope_witness :
    (0 : Nat) < 1 ∧
      ∃ r1, updateTodoDb [0] [2] "todo1" "user1" "b" false 1
          (addTodoDb [0] [1] "todo1" "user1" "" "a" 0 []) = [r1] ∧
        decryptRowPayload [0] r1 = some (encodeTodoJson "b" false) ∧
        decodeTodoBytes (encodeTodoJson "b" false) = ("b", false) ∧
        ("b" : String) ≠ "a" ∧
        r1.updated_at = 1 ∧
        ∀ r0 ∈ addTodoDb [0] [1] "todo1" "user1" "" "a" 0 [],
          r0.updated_at = 0 ∧ r0.updated_at < r1.updated_at :=
  ⟨by decide,
    c5_update_overwrites_envelope [0] [1] [2] "todo1" "user1" "" false 0 1
      (by decide)⟩

/-- Optimistic UI item of `TodoList.tsx` (`type Todo`). -/
structure TodoItem where
  id : String
  text : String
  completed : Bool
  env : CipherEnvelope
  synced : Bool
deriving DecidableEq, Repr

/-- `env.header.alg.includes("/raw")`. -/
def algIsRaw (alg : String) : Bool :=
  decide ("/raw".data <:+: alg.data)

/-- Outcome of one iteration of the decrypt-and-project rows loop. -/
inductive RowOutcome where
  | skipped
  | failed
  | projected (t : TodoItem)
deriving DecidableEq, Repr

/-- Item pushed for a successfully decrypted row. -/
def mkServerItem (r : EncRow) (env : CipherEnvelope) (plain : Bytes) :
    TodoItem :=
  { id := r.id, text := (decodeTodoBytes plain).1,
    completed := (decodeTodoBytes plain).2, env := env, synced := true }

/-- One iteration of the rows loop in the decrypt effect of `TodoList.tsx`:
raw-algorithm rows are skipped silently when the DEK is unavailable,
decrypt failures are caught and counted (the `catch` branch), successful
rows are projected.  The non-raw branch uses the crypto provider, modelled
as the same ideal AEAD under the provider's derived key `pk`. -/
def processRow (dc : Option Bytes) (pk : Bytes) (r : EncRow) : RowOutcome :=
  let env := rowEnvelope r
  if algIsRaw env.header.alg then
    match dc with
    | none => RowOutcome.skipped
    | some k =>
      match DataCrypto.decrypt k env r.aad with
      | some plain => RowOutcome.projected (mkServerItem r env plain)
      | none => RowOutcome.failed
  else
    match DataCrypto.decrypt pk env r.aad with
    | some plain => RowOutcome.projected (mkServerItem r env plain)
    | none => RowOutcome.failed

/-- The whole rows loop: server items in row order plus the `ok`/`fail`
counters.  The loop body never throws past an iteration: every outcome,
including a failed decrypt, falls through to the next row. -/
def processLoop (dc : Option Bytes) (pk : Bytes) :
    List EncRow → List TodoItem × Nat × Nat
  | [] => ([], 0, 0)
  | r :: rest =>
    let res := processLoop dc pk rest
    match processRow dc pk r with
    | RowOutcome.skipped => res
    | RowOutcome.failed => (res.1, res.2.1, res.2.2 + 1)
    | RowOutcome.projected t => (t :: res.1, res.2.1 + 1, res.2.2)

/-- Projection of a single row, `none` for skipped and failed rows. -/
def projectRow (dc : Option Bytes) (pk : Bytes) (r : EncRow) :
    Option TodoItem :=
  match processRow dc pk r with
  | RowOutcome.projected t => some t
  | _ => none

/-- The item list the loop produces is the per-row projection of the whole
batch. -/
theorem processLoop_fst (dc : Option Bytes) (pk : Bytes)
    (rows : List EncRow) :
    (processLoop dc pk rows).1 = rows.filterMap (projectRow dc pk) := by
  induction rows with
  | nil => rfl
  | cons r rest ih =>
    simp only [processLoop, projectRow, List.filterMap_cons]
    cases processRow dc pk r <;> simp [ih, projectRow]

/-- C6: a decryption failure on any single row of the batch never halts the
loop: every row after the failing one is still processed and every
successfully decrypted row is still projected — the batch result is exactly
the projection of the remaining rows, i.e. the concatenation of the results
for the rows before and after the failing one. -/
theorem c6_row_failure_isolated (dc : Option Bytes) (pk : Bytes)
    (pre post : List EncRow) (r : EncRow)
    (hfail : projectRow dc pk r = none) :
    (processLoop dc pk (pre ++ r :: post)).1 =
        (pre ++ post).filterMap (projectRow dc pk) ∧
      (processLoop dc pk (pre ++ r :: post)).1 =
        (processLoop dc pk pre).1 ++ (processLoop dc pk post).1 := by
  constructor <;>
    simp [processLoop_fst, List.filterMap_append, List.filterMap_cons, hfail]

/-- A raw-algorithm row that decrypts under DEK `[1]`. -/
def c6OkRow : EncRow where
  id := "ok1"
  user_id := "u"
  bucket_id := none
  alg := dataCryptoAlg
  aad := some todoAad
  nonce_b64 := [4]
  cipher_b64 := aeadEncrypt (encodeTodoJson "x" false) (adOfJs (some todoAad)) [4] [1]
  kdf_salt_b64 := ""
  created_at := 0
  updated_at := 0

/-- A raw-algorithm row encrypted under a different key `[9]`, so its
decryption under DEK `[1]` fails. -/
def c6FailRow : EncRow where
  id := "bad1"
  user_id := "u"
  bucket_id := none
  alg := dataCryptoAlg
  aad := some todoAad
  nonce_b64 := [4]
  cipher_b64 := aeadEncrypt (encodeTodoJson "y" false) (adOfJs (some todoAad)) [4] [9]
  kdf_salt_b64 := ""
  created_at := 0
  updated_at := 0

/-- C6 witness: a concrete batch with a failing row in the middle. -/
theorem c6_row_failure_isolated_witness :
    projectRow (some [1]) [0] c6FailRow = none ∧
      ((processLoop (some [1]) [0] ([c6OkRow] ++ c6FailRow :: [c6OkRow])).1 =
          ([c6OkRow] ++ [c6OkRow]).filterMap (projectRow (some [1]) [0]) ∧
        (processLoop (some [1]) [0] ([c6OkRow] ++ c6FailRow :: [c6OkRow])).1 =
          (processLoop (some [1]) [0] [c6OkRow]).1 ++
            (processLoop (some [1]) [0] [c6OkRow]).1) :=
  ⟨by decide,
    c6_row_failure_isolated (some [1]) [0] [c6OkRow] [c6OkRow] c6FailRow
      (by decide)⟩

/-- The decrypt effect of `TodoList.tsx` as a function of the previous item
state: guard against transiently empty refreshes, run the rows loop, then
merge — optimistic (unsynced) items not re-delivered by the server are kept
in front of the freshly projected server items. -/
def processEffect (dc : Option Bytes) (pk : Bytes) (isFetching : Bool)
    (rows : List EncRow) (prev : List TodoItem) : List TodoItem :=
  if isFetching ∧ rows = [] then prev
  else
    let server := (processLoop dc pk rows).1
    let serverIds := server.map (fun t => t.id)
    (prev.filter fun t => !t.synced && !(serverIds.contains t.id)) ++ server

/-- A raw-algorithm encrypted row re-delivered by a change notification. -/
def c7RawRow : EncRow where
  id := "t1"
  user_id := "u"
  bucket_id := none
  alg := dataCryptoAlg
  aad := some todoAad
  nonce_b64 := [5]
  cipher_b64 := aeadEncrypt (encodeTodoJson "x" false) (adOfJs (some todoAad)) [5] [1]
  kdf_salt_b64 := ""
  created_at := 0
  updated_at := 0

/-- The previously mirrored (decrypted and synced) projection of
`c7RawRow`. -/
def c7PrevItem : TodoItem where
  id := "t1"
  text := "x"
  completed := false
  env := rowEnvelope c7RawRow
  synced := true

/-- C7 counterexample: with the DEK unavailable (`dc = none`), processing a
notification that re-delivers the existing mirrored row `c7RawRow` does not
retain the previous projection `c7PrevItem` — the merge keeps only unsynced
optimistic items, so the visible set becomes empty and the row is removed. -/
theorem c7_locked_redelivery_removes_row :
    processEffect none [0] false [c7RawRow] [c7PrevItem] = [] ∧
      ([] : List TodoItem) ≠ [c7PrevItem] := by
  constructor
  · rfl
  · decide

/-- Under a locked DEK the rows loop skips every raw row: no item, no
`ok`/`fail` counts. -/
theorem processLoop_locked_all_raw (pk : Bytes) (rows : List EncRow)
    (hraw : ∀ r ∈ rows, algIsRaw r.alg = true) :
    processLoop none pk rows = ([], 0, 0) := by
  induction rows with
  | nil => rfl
  | cons r rest ih =>
    have hr : algIsRaw r.alg = true := hraw r (by simp)
    have hrest := ih fun x hx => hraw x (by simp [hx])
    simp [processLoop, processRow, rowEnvelope, columnsToEnvelope, hr, hrest]

/-- C7 (amended): with the DEK unavailable, processing a change
notification that re-delivers existing raw-algorithm rows completes without
error and skips them silently (no decrypt failure is counted), but the
previous projections of synced rows are not retained: the visible set keeps
exactly the unsynced optimistic items, removing previously synced rows. -/
theorem c7_locked_redelivery_amended (pk : Bytes) (isFetching : Bool)
    (rows : List EncRow) (prev : List TodoItem) (hrows : rows ≠ [])
    (hraw : ∀ r ∈ rows, algIsRaw r.alg = true) :
    processEffect none pk isFetching rows prev =
        prev.filter (fun t => !t.synced) ∧
      (processLoop none pk rows).2 = (0, 0) := by
  have hloop := processLoop_locked_all_raw pk rows hraw
  constructor
  · simp [processEffect, hloop, hrows]
  · simp [hloop]

/-- C7 amended witness at concrete inputs. -/
theorem c7_locked_redelivery_amended_witness :
    ([c7RawRow] ≠ ([] : List EncRow) ∧
        ∀ r ∈ [c7RawRow], algIsRaw r.alg = true) ∧
      (processEffect none [0] false [c7RawRow] [c7PrevItem] =
          [c7PrevItem].filter (fun t => !t.synced) ∧
        (processLoop none [0] [c7RawRow]).2 = (0, 0)) :=
  ⟨⟨by decide, by decide⟩,
    c7_locked_redelivery_amended [0] false [c7RawRow] [c7PrevItem]
      (by decide) (by decide)⟩

/-- Modelled from the spec: `WrappedKeyRecord` (Key Registry row; the
`lib/keyring.ts` source is not under src/) — its envelope wraps the DEK
under the active crypto provider. -/
structure WrappedKeyRec where
  nonce : Bytes
  envelope : ACipher
deriving DecidableEq, Repr

/-- Modelled from the spec: wrapping a DEK encrypts it with the active
crypto provider (ideal AEAD under the provider-derived key `pk`). -/
def wrapDEK (pk nonce dek : Bytes) : WrappedKeyRec :=
  { nonce := nonce, envelope := aeadEncrypt dek none nonce pk }

/-- Modelled from the spec: unwrapping decrypts the record's envelope with
the active crypto provider. -/
def unwrapDEK (pk : Bytes) (w : WrappedKeyRec) : Option Bytes :=
  aeadDecrypt w.envelope none w.nonce pk

/-- Unwrapping a freshly wrapped DEK returns the DEK. -/
theorem unwrap_wrapDEK (pk n d : Bytes) : unwrapDEK pk (wrapDEK pk n d) = some d := by
  simp [unwrapDEK, wrapDEK, aeadDecrypt, aeadEncrypt]

/-- Control state of one `ensureDEKWrapped` caller: before the lookup,
after the (asynchronous) lookup, or finished with a resolved DEK. -/
inductive CallerState where
  | start
  | readDone (found : Option WrappedKeyRec)
  | finished (dek : Option Bytes)
deriving DecidableEq, Repr

/-- Shared state of two concurrent `ensureDEKWrapped` callers for the same
fresh `(userId, providerKind, keyId)`: the Key Registry rows for that tuple
plus each caller's control state. -/
structure EnsureState where
  reg : List WrappedKeyRec
  ca : CallerState
  cb : CallerState
deriving DecidableEq, Repr

/-- Modelled from the spec: one atomic step of `ensureDEKWrapped`
(§4.3–§4.4; `lib/keyring.ts` is not under src/).  Step one is the
asynchronous lookup of the wrapped-key row.  Step two either unwraps the
found row, or — on the fresh-key path — runs the insert transaction whose
read-before-write check detects a row committed meanwhile and adopts it
instead of inserting a duplicate. -/
def callerStep (pk dek nonce : Bytes) (reg : List WrappedKeyRec)
    (c : CallerState) : List WrappedKeyRec × CallerState :=
  match c with
  | CallerState.start => (reg, CallerState.readDone reg.head?)
  | CallerState.readDone (some w) => (reg, CallerState.finished (unwrapDEK pk w))
  | CallerState.readDone none =>
    match reg.head? with
    | some w => (reg, CallerState.finished (unwrapDEK pk w))
    | none => (reg ++ [wrapDEK pk nonce dek], CallerState.finished (some dek))
  | CallerState.finished d => (reg, CallerState.finished d)

/-- Scheduler step: `true` advances caller A (fresh DEK `dekA`, wrap nonce
`nA`), `false` advances caller B. -/
def sysStep (pk dekA nA dekB nB : Bytes) (s : EnsureState) (who : Bool) :
    EnsureState :=
  if who then
    let res := callerStep pk dekA nA s.reg s.ca
    { reg := res.1, ca := res.2, cb := s.cb }
  else
    let res := callerStep pk dekB nB s.reg s.cb
    { reg := res.1, ca := s.ca, cb := res.2 }

/-- Run both callers from a fresh registry under an arbitrary cooperative
interleaving. -/
def runEnsure (pk dekA nA dekB nB : Bytes) (sched : List Bool) : EnsureState :=
  sched.foldl (sysStep pk dekA nA dekB nB)
    { reg := [], ca := CallerState.start, cb := CallerState.start }

/-- Per-caller invariant: a read snapshot or a resolved DEK always refers
to the unique committed row. -/
def CallerInv (pk : Bytes) (reg : List WrappedKeyRec) : CallerState → Prop
  | CallerState.start => True
  | CallerState.readDone none => True
  | CallerState.readDone (some w) => reg = [w]
  | CallerState.finished d => ∃ w, reg = [w] ∧ d = unwrapDEK pk w

/-- Registry invariant: at most one row, and any row wraps one of the two
callers' fresh DEKs. -/
def RegInv (pk dekA nA dekB nB : Bytes) (reg : List WrappedKeyRec) : Prop :=
  reg = [] ∨ reg = [wrapDEK pk nA dekA] ∨ reg = [wrapDEK pk nB dekB]

/-- Global invariant of the two-caller system. -/
def EnsureInv (pk dekA nA dekB nB : Bytes) (s : EnsureState) : Prop :=
  RegInv pk dekA nA dekB nB s.reg ∧ CallerInv pk s.reg s.ca ∧
    CallerInv pk s.reg s.cb


/-- One caller's step preserves the registry invariant, its own invariant,
and any other caller's invariant: the registry is only ever extended from
empty (inside the insert transaction), so a snapshot of a nonempty registry
stays accurate. -/
theorem callerStep_inv (pk dekA nA dekB nB dek nonce : Bytes)
    (reg : List WrappedKeyRec) (c other : CallerState)
    (hallow : wrapDEK pk nonce dek = wrapDEK pk nA dekA ∨
      wrapDEK pk nonce dek = wrapDEK pk nB dekB)
    (hreg : RegInv pk dekA nA dekB nB reg)
    (hc : CallerInv pk reg c) (hother : CallerInv pk reg other) :
    RegInv pk dekA nA dekB nB (callerStep pk dek nonce reg c).1 ∧
      CallerInv pk (callerStep pk dek nonce reg c).1
        (callerStep pk dek nonce reg c).2 ∧
      CallerInv pk (callerStep pk dek nonce reg c).1 other := by
  cases c with
  | start =>
    refine ⟨hreg, ?_, hother⟩
    cases hh : reg.head? with
    | none => simp [callerStep, hh, CallerInv]
    | some w =>
      simp only [callerStep, hh, CallerInv]
      rcases hreg with h0 | h1 | h1
      · subst h0; simp at hh
      · subst h1; simp at hh; simp [hh]
      · subst h1; simp at hh; simp [hh]
  | readDone found =>
    cases found with
    | some w =>
      refine ⟨hreg, ?_, hother⟩
      simp only [callerStep, CallerInv]
      exact ⟨w, hc, rfl⟩
    | none =>
      cases hreg with
      | inl h0 =>
        subst h0
        refine ⟨?_, ?_, ?_⟩
        · simp only [callerStep, List.head?_nil, List.nil_append]
          right
          rcases hallow with h | h
          · left; rw [h]
          · right; rw [h]
        · simp only [callerStep, List.head?_nil, List.nil_append, CallerInv]
          exact ⟨wrapDEK pk nonce dek, rfl, (unwrap_wrapDEK pk nonce dek).symm⟩
        · simp only [callerStep, List.head?_nil, List.nil_append]
          cases other with
          | start => trivial
          | readDone f =>
            cases f with
            | none => trivial
            | some w => simp [CallerInv] at hother
          | finished d =>
            rcases hother with ⟨w, hw, _⟩
            simp at hw
      | inr h1 =>
        have hsingle : ∃ w, reg = [w] := by
          rcases h1 with h | h
          · exact ⟨_, h⟩
          · exact ⟨_, h⟩
        rcases hsingle with ⟨w, hw⟩
        subst hw
        refine ⟨Or.inr h1, ?_, hother⟩
        simp only [callerStep, List.head?_cons, CallerInv]
        exact ⟨w, rfl, rfl⟩
  | finished d =>
    exact ⟨hreg, hc, hother⟩

/-- A scheduler step preserves the global invariant. -/
theorem sysStep_inv (pk dekA nA dekB nB : Bytes) (s : EnsureState)
    (who : Bool) (h : EnsureInv pk dekA nA dekB nB s) :
    EnsureInv pk dekA nA dekB nB (sysStep pk dekA nA dekB nB s who) := by
  rcases h with ⟨hreg, hca, hcb⟩
  cases who with
  | true =>
    have h3 := callerStep_inv pk dekA nA dekB nB dekA nA s.reg s.ca s.cb
      (Or.inl rfl) hreg hca hcb
    exact ⟨h3.1, h3.2.1, h3.2.2⟩
  | false =>
    have h3 := callerStep_inv pk dekA nA dekB nB dekB nB s.reg s.cb s.ca
      (Or.inr rfl) hreg hcb hca
    exact ⟨h3.1, h3.2.2, h3.2.1⟩

/-- The global invariant holds after any interleaving from any invariant
state. -/
theorem runEnsure_foldl_inv (pk dekA nA dekB nB : Bytes)
    (sched : List Bool) (s : EnsureState)
    (h : EnsureInv pk dekA nA dekB nB s) :
    EnsureInv pk dekA nA dekB nB
      (sched.foldl (sysStep pk dekA nA dekB nB) s) := by
  induction sched generalizing s with
  | nil => exact h
  | cons who rest ih =>
    exact ih _ (sysStep_inv pk dekA nA dekB nB s who h)

/-- The global invariant holds of every run from the fresh initial state. -/
theorem runEnsure_inv (pk dekA nA dekB nB : Bytes) (sched : List Bool) :
    EnsureInv pk dekA nA dekB nB (runEnsure pk dekA nA dekB nB sched) :=
  runEnsure_foldl_inv pk dekA nA dekB nB sched _
    ⟨Or.inl rfl, trivial, trivial⟩

/-- C8: under every cooperative interleaving of two concurrent
`ensureDEKWrapped` calls for the same fresh `(userId, providerKind, keyId)`
in which both callers finish, exactly one `WrappedKeyRecord` exists and
both callers resolve to the same DEK — the later writer's transaction
observes the committed row instead of inserting a second DEK. -/
theorem c8_ensure_dek_idempotent (pk dekA nA dekB nB : Bytes)
    (sched : List Bool) (da db : Option Bytes)
    (ha : (runEnsure pk dekA nA dekB nB sched).ca = CallerState.finished da)
    (hb : (runEnsure pk dekA nA dekB nB sched).cb = CallerState.finished db) :
    (runEnsure pk dekA nA dekB nB sched).reg.length = 1 ∧ da = db ∧
      da.isSome = true := by
  have hinv := runEnsure_inv pk dekA nA dekB nB sched
  rcases hinv with ⟨hreg, hca, hcb⟩
  rw [ha] at hca
  rw [hb] at hcb
  rcases hca with ⟨w, hw, hda⟩
  rcases hcb with ⟨w2, hw2, hdb⟩
  have hww : w = w2 := by
    rw [hw] at hw2
    exact (List.cons.injEq _ _ _ _ ▸ hw2).1.symm ▸ rfl
  constructor
  · rw [hw]; rfl
  constructor
  · rw [hda, hdb, hww]
  · rcases hreg with h0 | h1 | h1
    · rw [h0] at hw; simp at hw
    · rw [h1] at hw
      have : w = wrapDEK pk nA dekA := by
        simpa using hw.symm
      rw [hda, this, unwrap_wrapDEK]
      rfl
    · rw [h1] at hw
      have : w = wrapDEK pk nB dekB := by
        simpa using hw.symm
      rw [hda, this, unwrap_wrapDEK]
      rfl

/-- C8 witness: caller A runs to completion first, then caller B adopts the
committed row; both resolve the same DEK and one record exists. -/
theorem c8_ensure_dek_idempotent_witness :
    ((runEnsure [0] [1] [5] [2] [6] [true, true, false, false]).ca =
          CallerState.finished (some [1]) ∧
        (runEnsure [0] [1] [5] [2] [6] [true, true, false, false]).cb =
          CallerState.finished (some [1])) ∧
      ((runEnsure [0] [1] [5] [2] [6] [true, true, false, false]).reg.length = 1 ∧
        (some [1] : Option Bytes) = some [1] ∧
        (some [1] : Option Bytes).isSome = true) :=
  ⟨⟨by decide, by decide⟩,
    c8_ensure_dek_idempotent [0] [1] [5] [2] [6] [true, true, false, false]
      (some [1]) (some [1]) (by decide) (by decide)⟩
